import Mathlib

/-!
# desContext.cpp: glue between BlockCryptor and the DES implementation

A shallow embedding of `DESContext` and `DES3Context` (src/lib/desContext.cpp).

* Memory is a flat map from addresses to bytes; `plainText`, `cipherText`
  and `keyData` are addresses, so pointer equality, `memmove` and the
  pointer arithmetic `keyData + 8 * i` are modelled literally.
* The DES engine (`desinit`, `dessetkey`, `endes`, `dedes`, `desdone`) is not
  part of this file of the repository: it is a parameter, `DESPrimitive`.
* The host side (`symmetricKeyBits`, `BlockCryptor::setup`) is a parameter
  too, `Host`.
* C++ exceptions are `Except CssmError`; every call also returns the state it
  leaves behind, since a `throw` does not undo earlier writes.
* Every call of `init` and of the destructors records the calls it makes in
  a trace of `Event`s; `StLock` is the pair `lock` ... `unlock`, the unlock
  being emitted on every way out of the scope.
-/

set_option linter.unusedVariables false

namespace DesContext

/-! ## Bytes, blocks, memory -/

abbrev Byte := Fin 256

/-- One DES block, or one DES subkey: eight bytes. -/
abbrev Block := Fin 8 → Byte

/-- Byte-addressed memory. -/
abbrev Mem := Nat → Byte

/-- The storage of one `struct _desInst`, `sz` bytes long. -/
abbrev Storage (sz : Nat) := Fin sz → Byte

/-- The eight bytes at address `p`. -/
def readBlock (mem : Mem) (p : Nat) : Block :=
  fun j => mem (p + j.val)

/-- Memory after the eight bytes at address `p` were overwritten by `b`. -/
def writeBlock (mem : Mem) (p : Nat) (b : Block) : Mem :=
  fun a => if h : p ≤ a ∧ a < p + 8 then b ⟨a - p, by omega⟩ else mem a

/-- The C library `memmove(dst, src, n)`: the copy reads the old contents,
so overlapping ranges are handled. -/
def memmove (mem : Mem) (dst src n : Nat) : Mem :=
  fun a => if dst ≤ a ∧ a < dst + n then mem (src + (a - dst)) else mem a

/-- The C library `memset(&inst, c, n)` on the storage of one instance. -/
def memset {sz : Nat} (s : Storage sz) (c : Byte) (n : Nat) : Storage sz :=
  fun i => if i.val < n then c else s i

/-! ## Constants of desContext.h and of the CSSM headers -/

/-- Modelled from the spec: `DES_BLOCK_SIZE_BYTES` of desContext.h, which is
not among the sources ("DES block size: 8 octets"). -/
def DES_BLOCK_SIZE_BYTES : Nat := 8

/-- Modelled from the spec: `DES_KEY_SIZE_BITS_EXTERNAL` of desContext.h
("DES key size, external representation: 64 bits"). -/
def DES_KEY_SIZE_BITS_EXTERNAL : Nat := 64

/-- Modelled from the spec: `DES3_KEY_SIZE_BYTES` of desContext.h ("3DES
accepted key length: 24 octets"). -/
def DES3_KEY_SIZE_BYTES : Nat := 24

/-- Modelled from the spec: `DES3_BLOCK_SIZE_BYTES` of desContext.h ("block
size: 8"). -/
def DES3_BLOCK_SIZE_BYTES : Nat := 8

/-- The mode argument of `desinit`; the adapters only ever pass
`DES_MODE_STD`. -/
inductive DesMode where
  | DES_MODE_STD
  deriving DecidableEq, Repr

/-- The algorithm identifiers the adapters ask the key extractor for. -/
inductive AlgId where
  | CSSM_ALGID_DES
  | CSSM_ALGID_3DES_3KEY_EDE
  deriving DecidableEq, Repr

/-- The key usages the adapters ask the key extractor for. -/
inductive KeyUse where
  | CSSM_KEYUSE_ENCRYPT
  | CSSM_KEYUSE_DECRYPT
  deriving DecidableEq, Repr

/-- The errors thrown with `CssmError::throwMe`; `upstream` stands for
whatever the host's own routines throw. -/
inductive CssmError where
  | CSSMERR_CSP_INVALID_ATTR_KEY
  | CSSMERR_CSP_MEMORY_ERROR
  | CSSMERR_CSP_INPUT_LENGTH_ERROR
  | CSSMERR_CSP_OUTPUT_LENGTH_ERROR
  | upstream (code : Nat)
  deriving DecidableEq, Repr

/-! ## The collaborators -/

/-- The DES engine behind `desinit`, `dessetkey`, `endes`, `dedes` and
`desdone`. `W` is the engine's own global state (allocator, shared tables),
which `desinit` and `desdone` may read and change; `sz` is
`sizeof(struct _desInst)`. The transforms receive the instance and the
eight bytes of the block and hand both back. -/
structure DESPrimitive (W : Type) (sz : Nat) where
  desinit : W → Storage sz → DesMode → Int × W × Storage sz
  dessetkey : Storage sz → Block → Storage sz
  endes : Storage sz → Block → Storage sz × Block
  dedes : Storage sz → Block → Storage sz × Block
  desdone : W → Storage sz → W × Storage sz

/-- The host: the key extractor `symmetricKeyBits`, which yields the address
and the length of the key or throws, and `BlockCryptor::setup`. -/
structure Host (Ctx : Type) where
  symmetricKeyBits : Ctx → AlgId → KeyUse → Except CssmError (Nat × Nat)
  setup : Nat → Ctx → Except CssmError Unit

/-- The calls an adapter makes, as recorded in the trace. `lock` and
`unlock` are the constructor and the destructor of the `StLock` on
`desInitMutex`; the number is the index of the instance. -/
inductive Event where
  | symmetricKeyBits (alg : AlgId) (use : KeyUse)
  | lock
  | unlock
  | desinit (i : Nat) (irtn : Int)
  | dessetkey (i : Nat) (key : Block)
  | desdone (i : Nat)
  | memset (i : Nat)
  | setup (blockSize : Nat)
  deriving DecidableEq

/-! ## The adapters' state -/

/-- The data member of `DESContext`: one `struct _desInst`. -/
structure DESContext (sz : Nat) where
  DesInst : Storage sz

/-- The data member of `DES3Context`: `struct _desInst DesInst[3]`. -/
structure DES3Context (sz : Nat) where
  DesInst : Fin 3 → Storage sz

/-- What a call of `init` leaves behind. -/
structure InitResult (σ W : Type) where
  result : Except CssmError Unit
  self : σ
  world : W
  trace : List Event

/-- What a call of `encryptBlock` or `decryptBlock` leaves behind; `len` is
the length argument passed by reference. -/
structure BlockResult (σ : Type) where
  result : Except CssmError Unit
  self : σ
  mem : Mem
  len : Nat

/-- What a destructor leaves behind: `self` is the storage the object
occupied. -/
structure DoneResult (σ W : Type) where
  self : σ
  world : W
  trace : List Event

/-- The usage asked of the key: `encrypting ? CSSM_KEYUSE_ENCRYPT :
CSSM_KEYUSE_DECRYPT`. -/
def keyUse (encrypting : Bool) : KeyUse :=
  if encrypting then KeyUse.CSSM_KEYUSE_ENCRYPT else KeyUse.CSSM_KEYUSE_DECRYPT

/-! ## DESContext -/

section Operations

variable {W Ctx : Type} {sz : Nat}

/-- The destructor `DESContext::~DESContext`: release the instance, then wipe its
storage. -/
def DESContext.destroy (P : DESPrimitive W sz) (self : DESContext sz) (w : W) :
    DoneResult (DESContext sz) W :=
  let d := P.desdone w self.DesInst
  { self := ⟨memset d.2 0 sz⟩
    world := d.1
    trace := [Event.desdone 0, Event.memset 0] }

/-- The function `DESContext::init`. The key is fetched from the context; a length other
than `DES_KEY_SIZE_BITS_EXTERNAL / 8` throws. `desinit` runs inside the
scope of the `StLock`, `dessetkey` after it, `setup` last. -/
def DESContext.init (P : DESPrimitive W sz) (H : Host Ctx) (context : Ctx)
    (encrypting : Bool) (self : DESContext sz) (w : W) (mem : Mem) :
    InitResult (DESContext sz) W :=
  let use := keyUse encrypting
  let t0 := [Event.symmetricKeyBits AlgId.CSSM_ALGID_DES use]
  match H.symmetricKeyBits context AlgId.CSSM_ALGID_DES use with
  | .error e => ⟨.error e, self, w, t0⟩
  | .ok (keyData, keyLen) =>
    if keyLen ≠ DES_KEY_SIZE_BITS_EXTERNAL / 8 then
      ⟨.error CssmError.CSSMERR_CSP_INVALID_ATTR_KEY, self, w, t0⟩
    else
      let r := P.desinit w self.DesInst DesMode.DES_MODE_STD
      let t1 := t0 ++ [Event.lock, Event.desinit 0 r.1, Event.unlock]
      if r.1 ≠ 0 then
        ⟨.error CssmError.CSSMERR_CSP_MEMORY_ERROR, ⟨r.2.2⟩, r.2.1, t1⟩
      else
        let key := readBlock mem keyData
        let inst := P.dessetkey r.2.2 key
        let t2 := t1 ++ [Event.dessetkey 0 key, Event.setup DES_BLOCK_SIZE_BYTES]
        match H.setup DES_BLOCK_SIZE_BYTES context with
        | .error e => ⟨.error e, ⟨inst⟩, r.2.1, t2⟩
        | .ok _ => ⟨.ok (), ⟨inst⟩, r.2.1, t2⟩

/-- The function `DESContext::encryptBlock`; `final` is ignored. -/
def DESContext.encryptBlock (P : DESPrimitive W sz) (self : DESContext sz) (mem : Mem)
    (plainText plainTextLen cipherText cipherTextLen : Nat) (final : Bool) :
    BlockResult (DESContext sz) :=
  if plainTextLen ≠ DES_BLOCK_SIZE_BYTES then
    ⟨.error CssmError.CSSMERR_CSP_INPUT_LENGTH_ERROR, self, mem, cipherTextLen⟩
  else if cipherTextLen < DES_BLOCK_SIZE_BYTES then
    ⟨.error CssmError.CSSMERR_CSP_OUTPUT_LENGTH_ERROR, self, mem, cipherTextLen⟩
  else
    let m1 := if plainText ≠ cipherText then
      memmove mem cipherText plainText DES_BLOCK_SIZE_BYTES else mem
    let e := P.endes self.DesInst (readBlock m1 cipherText)
    ⟨.ok (), ⟨e.1⟩, writeBlock m1 cipherText e.2, DES_BLOCK_SIZE_BYTES⟩

/-- The function `DESContext::decryptBlock`; the length of the input is implied, `final`
is ignored. -/
def DESContext.decryptBlock (P : DESPrimitive W sz) (self : DESContext sz) (mem : Mem)
    (cipherText plainText plainTextLen : Nat) (final : Bool) :
    BlockResult (DESContext sz) :=
  if plainTextLen < DES_BLOCK_SIZE_BYTES then
    ⟨.error CssmError.CSSMERR_CSP_OUTPUT_LENGTH_ERROR, self, mem, plainTextLen⟩
  else
    let m1 := if plainText ≠ cipherText then
      memmove mem plainText cipherText DES_BLOCK_SIZE_BYTES else mem
    let d := P.dedes self.DesInst (readBlock m1 plainText)
    ⟨.ok (), ⟨d.1⟩, writeBlock m1 plainText d.2, DES_BLOCK_SIZE_BYTES⟩

/-! ## DES3Context -/

/-- The loop of `DES3Context::~DES3Context`, from index `i` on; `n` bounds
the number of rounds left. -/
def DES3Context.destroyLoop (P : DESPrimitive W sz) :
    Nat → Nat → (Fin 3 → Storage sz) → W → List Event → DoneResult (DES3Context sz) W
  | 0, _, insts, w, tr => ⟨⟨insts⟩, w, tr⟩
  | n + 1, i, insts, w, tr =>
    if h : i < 3 then
      let d := P.desdone w (insts ⟨i, h⟩)
      DES3Context.destroyLoop P n (i + 1)
        (Function.update insts ⟨i, h⟩ (memset d.2 0 sz)) d.1
        (tr ++ [Event.desdone i, Event.memset i])
    else ⟨⟨insts⟩, w, tr⟩

/-- The destructor `DES3Context::~DES3Context`: `for(int i = 0; i < 3; i++)`, release and
wipe instance `i`. -/
def DES3Context.destroy (P : DESPrimitive W sz) (self : DES3Context sz) (w : W) :
    DoneResult (DES3Context sz) W :=
  DES3Context.destroyLoop P 3 0 self.DesInst w []

/-- The state of the loop in `DES3Context::init` when it is left: `irtn` is
non-zero when the loop was left by the `throw`. -/
structure InitLoop (W : Type) (sz : Nat) where
  irtn : Int
  DesInst : Fin 3 → Storage sz
  world : W
  trace : List Event

/-- The loop of `DES3Context::init`, from index `i` on; `n` bounds the number
of rounds left. Instance `i` is initialised and, unless `desinit` returned
non-zero, keyed with the eight bytes at `keyData + 8 * i`. -/
def DES3Context.initLoop (P : DESPrimitive W sz) (mem : Mem) (keyData : Nat) :
    Nat → Nat → (Fin 3 → Storage sz) → W → List Event → InitLoop W sz
  | 0, _, insts, w, tr => ⟨0, insts, w, tr⟩
  | n + 1, i, insts, w, tr =>
    if h : i < 3 then
      let r := P.desinit w (insts ⟨i, h⟩) DesMode.DES_MODE_STD
      if r.1 ≠ 0 then
        ⟨r.1, Function.update insts ⟨i, h⟩ r.2.2, r.2.1, tr ++ [Event.desinit i r.1]⟩
      else
        let key := readBlock mem (keyData + 8 * i)
        DES3Context.initLoop P mem keyData n (i + 1)
          (Function.update insts ⟨i, h⟩ (P.dessetkey r.2.2 key)) r.2.1
          (tr ++ [Event.desinit i r.1, Event.dessetkey i key])
    else ⟨0, insts, w, tr⟩

/-- The function `DES3Context::init`. The whole loop, `desinit` and `dessetkey` alike,
runs inside the scope of the `StLock`. -/
def DES3Context.init (P : DESPrimitive W sz) (H : Host Ctx) (context : Ctx)
    (encrypting : Bool) (self : DES3Context sz) (w : W) (mem : Mem) :
    InitResult (DES3Context sz) W :=
  let use := keyUse encrypting
  let t0 := [Event.symmetricKeyBits AlgId.CSSM_ALGID_3DES_3KEY_EDE use]
  match H.symmetricKeyBits context AlgId.CSSM_ALGID_3DES_3KEY_EDE use with
  | .error e => ⟨.error e, self, w, t0⟩
  | .ok (keyData, keyLen) =>
    if keyLen ≠ DES3_KEY_SIZE_BYTES then
      ⟨.error CssmError.CSSMERR_CSP_INVALID_ATTR_KEY, self, w, t0⟩
    else
      let l := DES3Context.initLoop P mem keyData 3 0 self.DesInst w (t0 ++ [Event.lock])
      let t1 := l.trace ++ [Event.unlock]
      if l.irtn ≠ 0 then
        ⟨.error CssmError.CSSMERR_CSP_MEMORY_ERROR, ⟨l.DesInst⟩, l.world, t1⟩
      else
        let t2 := t1 ++ [Event.setup DES3_BLOCK_SIZE_BYTES]
        match H.setup DES3_BLOCK_SIZE_BYTES context with
        | .error e => ⟨.error e, ⟨l.DesInst⟩, l.world, t2⟩
        | .ok _ => ⟨.ok (), ⟨l.DesInst⟩, l.world, t2⟩

/-- The function `DES3Context::encryptBlock`: encrypt, decrypt, encrypt, in place on the
output buffer. -/
def DES3Context.encryptBlock (P : DESPrimitive W sz) (self : DES3Context sz) (mem : Mem)
    (plainText plainTextLen cipherText cipherTextLen : Nat) (final : Bool) :
    BlockResult (DES3Context sz) :=
  if plainTextLen ≠ DES3_BLOCK_SIZE_BYTES then
    ⟨.error CssmError.CSSMERR_CSP_INPUT_LENGTH_ERROR, self, mem, cipherTextLen⟩
  else if cipherTextLen < DES3_BLOCK_SIZE_BYTES then
    ⟨.error CssmError.CSSMERR_CSP_OUTPUT_LENGTH_ERROR, self, mem, cipherTextLen⟩
  else
    let m0 := if plainText ≠ cipherText then
      memmove mem cipherText plainText DES3_BLOCK_SIZE_BYTES else mem
    let a := P.endes (self.DesInst 0) (readBlock m0 cipherText)
    let m1 := writeBlock m0 cipherText a.2
    let b := P.dedes (self.DesInst 1) (readBlock m1 cipherText)
    let m2 := writeBlock m1 cipherText b.2
    let c := P.endes (self.DesInst 2) (readBlock m2 cipherText)
    let m3 := writeBlock m2 cipherText c.2
    ⟨.ok (), ⟨![a.1, b.1, c.1]⟩, m3, DES3_BLOCK_SIZE_BYTES⟩

/-- The function `DES3Context::decryptBlock`: decrypt, encrypt, decrypt, in place on the
output buffer. -/
def DES3Context.decryptBlock (P : DESPrimitive W sz) (self : DES3Context sz) (mem : Mem)
    (cipherText plainText plainTextLen : Nat) (final : Bool) :
    BlockResult (DES3Context sz) :=
  if plainTextLen < DES3_BLOCK_SIZE_BYTES then
    ⟨.error CssmError.CSSMERR_CSP_OUTPUT_LENGTH_ERROR, self, mem, plainTextLen⟩
  else
    let m0 := if plainText ≠ cipherText then
      memmove mem plainText cipherText DES3_BLOCK_SIZE_BYTES else mem
    let c := P.dedes (self.DesInst 2) (readBlock m0 plainText)
    let m1 := writeBlock m0 plainText c.2
    let b := P.endes (self.DesInst 1) (readBlock m1 plainText)
    let m2 := writeBlock m1 plainText b.2
    let a := P.dedes (self.DesInst 0) (readBlock m2 plainText)
    let m3 := writeBlock m2 plainText a.2
    ⟨.ok (), ⟨![a.1, b.1, c.1]⟩, m3, DES3_BLOCK_SIZE_BYTES⟩

end Operations

/-! ## Keyed states and the reference composition -/

section Reference

variable {W : Type} {sz : Nat}

/-- The state `s` is what `dessetkey` with subkey `k` makes of an instance
on which `desinit` has just returned zero. -/
def InitKeyed (P : DESPrimitive W sz) (k : Block) (s : Storage sz) : Prop :=
  ∃ (w : W) (s0 : Storage sz),
    (P.desinit w s0 DesMode.DES_MODE_STD).1 = 0 ∧
    s = P.dessetkey (P.desinit w s0 DesMode.DES_MODE_STD).2.2 k

/-- A state keyed with `k`: one that `desinit` and `dessetkey` with `k`
produced, possibly used by `endes` and `dedes` since. -/
inductive Keyed (P : DESPrimitive W sz) (k : Block) : Storage sz → Prop where
  | init (s : Storage sz) : InitKeyed P k s → Keyed P k s
  | endes (s : Storage sz) (b : Block) : Keyed P k s → Keyed P k (P.endes s b).1
  | dedes (s : Storage sz) (b : Block) : Keyed P k s → Keyed P k (P.dedes s b).1

/-- On states keyed with the same subkey, `dedes` undoes `endes`. -/
def DedesInvertsEndes (P : DESPrimitive W sz) : Prop :=
  ∀ (k : Block) (s s' : Storage sz), Keyed P k s → Keyed P k s' →
    ∀ b : Block, (P.dedes s' (P.endes s b).2).2 = b

/-- The `i`-th eight-byte subkey of a 24-byte key: bytes `8 * i` to
`8 * i + 7`. -/
def subkey (K : Fin 24 → Byte) (i : Fin 3) : Block :=
  fun j => K ⟨8 * i.val + j.val, by omega⟩

/-- The 24-byte key made of three copies of the 8-byte key `k`. -/
def tripled (k : Block) : Fin 24 → Byte :=
  fun j => k ⟨j.val % 8, Nat.mod_lt _ (by decide)⟩

/-- Three-key EDE as the specification words it: `B ← E_{k0}(B)`,
`B ← D_{k1}(B)`, `B ← E_{k2}(B)`, each step being the primitive's transform
on the state keyed with that subkey. -/
def edeEncrypt (P : DESPrimitive W sz) (s0 s1 s2 : Storage sz) (B : Block) : Block :=
  (P.endes s2 (P.dedes s1 (P.endes s0 B).2).2).2

end Reference

/-! ## Reading the trace -/

/-- Is the event a call of `desinit`? -/
def Event.isDesinit : Event → Bool
  | Event.desinit _ _ => true
  | _ => false

/-- Is the event a call of `dessetkey`? -/
def Event.isDessetkey : Event → Bool
  | Event.dessetkey _ _ => true
  | _ => false

/-- Is the event one of the two keying calls, `desinit` or `dessetkey`? -/
def Event.isKeying (e : Event) : Bool :=
  e.isDesinit || e.isDessetkey

/-- Is the event a call of `desdone`? -/
def Event.isDesdone : Event → Bool
  | Event.desdone _ => true
  | _ => false

/-- Is the event a call of `setup`? -/
def Event.isSetup : Event → Bool
  | Event.setup _ => true
  | _ => false

/-- Scan of a trace for the discipline of `desInitMutex`. `held` says
whether the guard is held where the scan starts. The scan succeeds when the
guard is never taken twice nor released unheld, every other event that
happens while it is held satisfies `allowed`, and the guard is free at the
end. -/
def guardHeldOnly (allowed : Event → Bool) : Bool → List Event → Bool
  | held, [] => !held
  | held, Event.lock :: t => !held && guardHeldOnly allowed true t
  | held, Event.unlock :: t => held && guardHeldOnly allowed false t
  | held, e :: t => (!held || allowed e) && guardHeldOnly allowed held t

/-- Exact scan of a trace for the discipline of `desInitMutex`. `held` says
whether the guard is held where the scan starts. The scan succeeds when the
guard is never taken twice nor released unheld, every other event happens
while the guard is held if `underGuard` says so and while it is free if
not, and the guard is free at the end. -/
def guardExact (underGuard : Event → Bool) : Bool → List Event → Bool
  | held, [] => !held
  | held, Event.lock :: t => !held && guardExact underGuard true t
  | held, Event.unlock :: t => held && guardExact underGuard false t
  | held, e :: t => (held == underGuard e) && guardExact underGuard held t

/-- The events of `n` rounds of the loop of `DES3Context::init` from index
`i` on when every `desinit` returns zero: instance by instance, `desinit`
and then `dessetkey` with the eight bytes at `keyData + 8 * i`. -/
def keyingEvents (mem : Mem) (keyData : Nat) : Nat → Nat → List Event
  | 0, _ => []
  | n + 1, i =>
    if i < 3 then
      Event.desinit i 0 :: Event.dessetkey i (readBlock mem (keyData + 8 * i))
        :: keyingEvents mem keyData n (i + 1)
    else []

/-! ## The life of an adapter -/

/-- The arguments of one call of `init`, with the memory the key is read
from. -/
structure InitCall (Ctx : Type) where
  context : Ctx
  encrypting : Bool
  mem : Mem

section Lifetime

variable {W Ctx : Type} {sz : Nat}

/-- The trace of a `DESContext` on which `init` is called once per element
of the list, whatever each call returns, and which is then destroyed. -/
def DESContext.lifetime (P : DESPrimitive W sz) (H : Host Ctx) :
    List (InitCall Ctx) → DESContext sz → W → List Event
  | [], self, w => (DESContext.destroy P self w).trace
  | c :: cs, self, w =>
    let r := DESContext.init P H c.context c.encrypting self w c.mem
    r.trace ++ DESContext.lifetime P H cs r.self r.world

/-- The same for a `DES3Context`. -/
def DES3Context.lifetime (P : DESPrimitive W sz) (H : Host Ctx) :
    List (InitCall Ctx) → DES3Context sz → W → List Event
  | [], self, w => (DES3Context.destroy P self w).trace
  | c :: cs, self, w =>
    let r := DES3Context.init P H c.context c.encrypting self w c.mem
    r.trace ++ DES3Context.lifetime P H cs r.self r.world

end Lifetime

/-! ## A small engine and host to run the adapters on -/

/-- The allocator of the sample engine: `free` instances can still be handed
out, `live` are handed out and not yet returned. -/
structure SampleWorld where
  free : Nat
  live : Nat
  deriving DecidableEq, Repr

/-- A sample engine with nine bytes per instance: byte 0 says whether the
instance is initialised, bytes 1 to 8 hold the subkey. `desinit` takes one
instance from the allocator and fails with -1 when none is left; `endes`
adds the subkey to the block bytewise, `dedes` subtracts it; `desdone` gives
the instance back and does not wipe it. -/
def sampleEngine : DESPrimitive SampleWorld 9 where
  desinit := fun w s _ =>
    if w.free = 0 then (-1, w, s)
    else (0, ⟨w.free - 1, w.live + 1⟩, fun i => if i.val = 0 then 1 else 0)
  dessetkey := fun s k i => if h : i.val = 0 then s i else k ⟨i.val - 1, by omega⟩
  endes := fun s b => (s, fun j => b j + s ⟨j.val + 1, by omega⟩)
  dedes := fun s b => (s, fun j => b j - s ⟨j.val + 1, by omega⟩)
  desdone := fun w s => (⟨w.free + 1, w.live - 1⟩, s)

/-- A sample host whose context is the address and the length of the key;
`setup` always succeeds. -/
def sampleHost : Host (Nat × Nat) where
  symmetricKeyBits := fun c _ _ => .ok c
  setup := fun _ _ => .ok ()

/-- A sample memory: byte `a` holds `7 * a + 3` modulo 256. -/
def sampleMem : Mem := fun a => ⟨(7 * a + 3) % 256, Nat.mod_lt _ (by decide)⟩

/-- A sample memory holding the same eight bytes three times from address 0
on. -/
def sampleMemTripled : Mem := fun a => ⟨(7 * (a % 8) + 3) % 256, Nat.mod_lt _ (by decide)⟩

/-- A `DESContext` whose storage was never initialised: all bytes 0xAA. -/
def sampleDES : DESContext 9 := ⟨fun _ => 0xAA⟩

/-- A `DES3Context` whose storage was never initialised: all bytes 0xAA. -/
def sampleDES3 : DES3Context 9 := ⟨fun _ _ => 0xAA⟩

/-- An allocator with room for `n` instances. -/
def sampleWorld (n : Nat) : SampleWorld := ⟨n, 0⟩

/-! ## Memory lemmas -/

theorem readBlock_writeBlock (mem : Mem) (p : Nat) (b : Block) :
    readBlock (writeBlock mem p b) p = b := by
  funext j
  have hj := j.isLt
  simp only [readBlock, writeBlock]
  rw [dif_pos ⟨by omega, by omega⟩]
  congr 1
  apply Fin.ext
  simp

theorem readBlock_memmove (mem : Mem) (dst src : Nat) :
    readBlock (memmove mem dst src 8) dst = readBlock mem src := by
  funext j
  have hj := j.isLt
  simp only [readBlock, memmove]
  rw [if_pos ⟨by omega, by omega⟩]
  congr 1
  omega

/-- The block the transforms work on: the eight input bytes, whether they
were copied to the output buffer or already are there. -/
theorem readBlock_staged (mem : Mem) (src dst : Nat) :
    readBlock (if src ≠ dst then memmove mem dst src 8 else mem) dst = readBlock mem src := by
  by_cases h : src = dst
  · simp [h]
  · simp only [ne_eq, h, not_false_eq_true, if_true]
    exact readBlock_memmove mem dst src

/-- The same with the test written the other way round, as `decryptBlock`
has it. -/
theorem readBlock_staged_rev (mem : Mem) (src dst : Nat) :
    readBlock (if dst ≠ src then memmove mem dst src 8 else mem) dst = readBlock mem src := by
  by_cases h : dst = src
  · simp [h]
  · simp only [ne_eq, h, not_false_eq_true, if_true]
    exact readBlock_memmove mem dst src

/-- Writing a block at `p` leaves every byte outside `p .. p + 7` alone. -/
theorem writeBlock_outside (mem : Mem) (p : Nat) (b : Block) (a : Nat)
    (h : a < p ∨ p + 8 ≤ a) : writeBlock mem p b a = mem a := by
  simp only [writeBlock]
  rw [dif_neg (by omega)]

/-! ## The loop of `DES3Context::init` -/

section Loop

variable {W : Type} {sz : Nat}

/-- The loop never touches an instance below the index it starts from. -/
theorem initLoop_below (P : DESPrimitive W sz) (mem : Mem) (keyData : Nat) :
    ∀ (n i : Nat) (insts : Fin 3 → Storage sz) (w : W) (tr : List Event) (j : Fin 3),
      j.val < i → (DES3Context.initLoop P mem keyData n i insts w tr).DesInst j = insts j := by
  intro n
  induction n with
  | zero => intro i insts w tr j _; rfl
  | succ n ih =>
    intro i insts w tr j hj
    simp only [DES3Context.initLoop]
    split
    · rename_i h
      have hne : j ≠ ⟨i, h⟩ := by
        intro e
        rw [e] at hj
        exact Nat.lt_irrefl _ hj
      split
      · simp [Function.update_noteq hne]
      · rw [ih (i + 1) _ _ _ j (by omega)]
        simp [Function.update_noteq hne]
    · rfl

/-- When the loop is left without a `throw`, every instance in its range is
initialised and keyed with the eight key bytes at `keyData + 8 * j`. -/
theorem initLoop_keyed (P : DESPrimitive W sz) (mem : Mem) (keyData : Nat) :
    ∀ (n i : Nat) (insts : Fin 3 → Storage sz) (w : W) (tr : List Event),
      (DES3Context.initLoop P mem keyData n i insts w tr).irtn = 0 →
      ∀ j : Fin 3, i ≤ j.val → j.val < i + n →
        InitKeyed P (readBlock mem (keyData + 8 * j.val))
          ((DES3Context.initLoop P mem keyData n i insts w tr).DesInst j) := by
  intro n
  induction n with
  | zero => intro i insts w tr _ j h1 h2; omega
  | succ n ih =>
    intro i insts w tr h0 j h1 h2
    have hi : i < 3 := by have := j.isLt; omega
    simp only [DES3Context.initLoop, dif_pos hi] at h0 ⊢
    by_cases hr : (P.desinit w (insts ⟨i, hi⟩) DesMode.DES_MODE_STD).1 = 0
    · simp only [ne_eq, hr, not_true_eq_false, if_false] at h0 ⊢
      by_cases hji : j.val = i
      · have hj : j = ⟨i, hi⟩ := Fin.ext hji
        rw [initLoop_below P mem keyData n (i + 1) _ _ _ j (by omega)]
        subst hj
        refine ⟨w, insts ⟨i, hi⟩, hr, ?_⟩
        simp [hr]
      · exact ih (i + 1) _ _ _ h0 j (by omega) (by omega)
    · simp only [ne_eq, hr, not_false_eq_true, if_true] at h0

/-- The events the loop adds to the trace are calls of `desinit` and
`dessetkey` only. If one of them is a `desinit` on index `f` that returned a
non-zero `x`, the loop was left by the `throw` with `irtn = x`, the instances
from the start index up to `f` stay initialised and keyed, and those after
`f` are as they were. -/
theorem initLoop_trace (P : DESPrimitive W sz) (mem : Mem) (keyData : Nat) :
    ∀ (n i : Nat) (insts : Fin 3 → Storage sz) (w : W) (tr : List Event),
      ∃ t : List Event,
        (DES3Context.initLoop P mem keyData n i insts w tr).trace = tr ++ t ∧
        (∀ e ∈ t, (e.isDesinit || e.isDessetkey) = true) ∧
        (∀ (f : Nat) (x : Int), Event.desinit f x ∈ t → x ≠ 0 →
          (DES3Context.initLoop P mem keyData n i insts w tr).irtn = x ∧
          i ≤ f ∧ f < 3 ∧
          (∀ j : Fin 3, i ≤ j.val → j.val < f →
            InitKeyed P (readBlock mem (keyData + 8 * j.val))
              ((DES3Context.initLoop P mem keyData n i insts w tr).DesInst j)) ∧
          (∀ j : Fin 3, f < j.val →
            (DES3Context.initLoop P mem keyData n i insts w tr).DesInst j = insts j)) := by
  intro n
  induction n with
  | zero =>
    intro i insts w tr
    exact ⟨[], by simp [DES3Context.initLoop], by simp, by simp⟩
  | succ n ih =>
    intro i insts w tr
    by_cases h : i < 3
    · by_cases hr : (P.desinit w (insts ⟨i, h⟩) DesMode.DES_MODE_STD).1 = 0
      · obtain ⟨t', ht', hall, hfail⟩ := ih (i + 1)
          (Function.update insts ⟨i, h⟩
            (P.dessetkey (P.desinit w (insts ⟨i, h⟩) DesMode.DES_MODE_STD).2.2
              (readBlock mem (keyData + 8 * i))))
          (P.desinit w (insts ⟨i, h⟩) DesMode.DES_MODE_STD).2.1
          (tr ++ [Event.desinit i (P.desinit w (insts ⟨i, h⟩) DesMode.DES_MODE_STD).1,
            Event.dessetkey i (readBlock mem (keyData + 8 * i))])
        have hL : DES3Context.initLoop P mem keyData (n + 1) i insts w tr
            = DES3Context.initLoop P mem keyData n (i + 1)
              (Function.update insts ⟨i, h⟩
                (P.dessetkey (P.desinit w (insts ⟨i, h⟩) DesMode.DES_MODE_STD).2.2
                  (readBlock mem (keyData + 8 * i))))
              (P.desinit w (insts ⟨i, h⟩) DesMode.DES_MODE_STD).2.1
              (tr ++ [Event.desinit i (P.desinit w (insts ⟨i, h⟩) DesMode.DES_MODE_STD).1,
                Event.dessetkey i (readBlock mem (keyData + 8 * i))]) := by
          simp only [DES3Context.initLoop, dif_pos h, ne_eq, hr, not_true_eq_false, if_false]
        rw [hL]
        refine ⟨[Event.desinit i (P.desinit w (insts ⟨i, h⟩) DesMode.DES_MODE_STD).1,
          Event.dessetkey i (readBlock mem (keyData + 8 * i))] ++ t', ?_, ?_, ?_⟩
        · rw [ht', List.append_assoc]
        · intro e he
          rcases List.mem_append.mp he with he | he
          · simp only [List.mem_cons, List.mem_singleton, List.not_mem_nil, or_false] at he
            rcases he with rfl | rfl <;> simp [Event.isDesinit, Event.isDessetkey]
          · exact hall e he
        · intro f x hm hx
          have hm' : Event.desinit f x ∈ t' := by
            rcases List.mem_append.mp hm with he | he
            · simp only [List.mem_cons, List.mem_singleton, List.not_mem_nil, or_false,
                Event.desinit.injEq, reduceCtorEq] at he
              exact absurd (he.2.trans hr) hx
            · exact he
          obtain ⟨h1, h2, h3, h4, h5⟩ := hfail f x hm' hx
          refine ⟨h1, by omega, h3, ?_, ?_⟩
          · intro j hj1 hj2
            by_cases hji : j.val = i
            · have hj : j = ⟨i, h⟩ := Fin.ext hji
              rw [initLoop_below P mem keyData n (i + 1) _ _ _ j (by omega)]
              subst hj
              refine ⟨w, insts ⟨i, h⟩, hr, ?_⟩
              simp
            · exact h4 j (by omega) hj2
          · intro j hj
            have hne : j ≠ ⟨i, h⟩ := by
              intro e
              rw [e] at hj
              simp only at hj
              omega
            rw [h5 j hj, Function.update_noteq hne]
      · have hL : DES3Context.initLoop P mem keyData (n + 1) i insts w tr
            = ⟨(P.desinit w (insts ⟨i, h⟩) DesMode.DES_MODE_STD).1,
                Function.update insts ⟨i, h⟩
                  (P.desinit w (insts ⟨i, h⟩) DesMode.DES_MODE_STD).2.2,
                (P.desinit w (insts ⟨i, h⟩) DesMode.DES_MODE_STD).2.1,
                tr ++ [Event.desinit i
                  (P.desinit w (insts ⟨i, h⟩) DesMode.DES_MODE_STD).1]⟩ := by
          simp only [DES3Context.initLoop, dif_pos h, ne_eq, hr, not_false_eq_true, if_true]
        rw [hL]
        refine ⟨[Event.desinit i (P.desinit w (insts ⟨i, h⟩) DesMode.DES_MODE_STD).1],
          rfl, ?_, ?_⟩
        · intro e he
          simp only [List.mem_singleton] at he
          subst he
          simp [Event.isDesinit]
        · intro f x hm hx
          simp only [List.mem_singleton, Event.desinit.injEq] at hm
          obtain ⟨rfl, rfl⟩ := hm
          refine ⟨rfl, Nat.le_refl _, h, ?_, ?_⟩
          · intro j hj1 hj2
            omega
          · intro j hj
            have hne : j ≠ ⟨f, h⟩ := by
              intro e
              rw [e] at hj
              simp only at hj
              omega
            simp only [Function.update_noteq hne]
    · exact ⟨[], by simp [DES3Context.initLoop, h], by simp, by simp⟩

/-- When the loop is left without a `throw`, the events it added are exactly
the keying events of its rounds. -/
theorem initLoop_trace_ok (P : DESPrimitive W sz) (mem : Mem) (keyData : Nat) :
    ∀ (n i : Nat) (insts : Fin 3 → Storage sz) (w : W) (tr : List Event),
      (DES3Context.initLoop P mem keyData n i insts w tr).irtn = 0 →
      (DES3Context.initLoop P mem keyData n i insts w tr).trace
        = tr ++ keyingEvents mem keyData n i := by
  intro n
  induction n with
  | zero =>
    intro i insts w tr _
    simp [DES3Context.initLoop, keyingEvents]
  | succ n ih =>
    intro i insts w tr h0
    by_cases h : i < 3
    · by_cases hr : (P.desinit w (insts ⟨i, h⟩) DesMode.DES_MODE_STD).1 = 0
      · simp only [DES3Context.initLoop, dif_pos h, ne_eq, hr, not_true_eq_false,
          if_false] at h0 ⊢
        rw [ih _ _ _ _ h0]
        simp [keyingEvents, h]
      · simp only [DES3Context.initLoop, dif_pos h, ne_eq, hr, not_false_eq_true,
          if_true] at h0
    · simp [DES3Context.initLoop, keyingEvents, h]

end Loop

/-! ## What a successful `init` leaves, what the transforms compute -/

section Facts

variable {W Ctx : Type} {sz : Nat}

/-- A `DESContext::init` that returns normally saw a key of 8 bytes and
leaves the instance initialised and keyed with them. -/
theorem DESContext_init_ok (P : DESPrimitive W sz) (H : Host Ctx) (context : Ctx)
    (encrypting : Bool) (self : DESContext sz) (w : W) (mem : Mem) (keyData keyLen : Nat)
    (hkey : H.symmetricKeyBits context AlgId.CSSM_ALGID_DES (keyUse encrypting)
      = .ok (keyData, keyLen))
    (hinit : (DESContext.init P H context encrypting self w mem).result = .ok ()) :
    keyLen = 8 ∧
    InitKeyed P (readBlock mem keyData)
      (DESContext.init P H context encrypting self w mem).self.DesInst := by
  simp only [DESContext.init, hkey] at hinit ⊢
  by_cases hl : keyLen = 8
  · by_cases hr : (P.desinit w self.DesInst DesMode.DES_MODE_STD).1 = 0
    · refine ⟨hl, ?_⟩
      cases hs : H.setup DES_BLOCK_SIZE_BYTES context with
      | error e => simp [hl, DES_KEY_SIZE_BITS_EXTERNAL, hr, hs] at hinit
      | ok u =>
        simp only [hl, DES_KEY_SIZE_BITS_EXTERNAL, ne_eq, hr, hs]
        exact ⟨w, self.DesInst, hr, rfl⟩
    · simp [hl, DES_KEY_SIZE_BITS_EXTERNAL, hr] at hinit
  · simp [hl, DES_KEY_SIZE_BITS_EXTERNAL] at hinit

/-- A `DES3Context::init` that returns normally saw a key of 24 bytes and
leaves instance `i` initialised and keyed with the bytes at
`keyData + 8 * i`. -/
theorem DES3Context_init_ok (P : DESPrimitive W sz) (H : Host Ctx) (context : Ctx)
    (encrypting : Bool) (self : DES3Context sz) (w : W) (mem : Mem) (keyData keyLen : Nat)
    (hkey : H.symmetricKeyBits context AlgId.CSSM_ALGID_3DES_3KEY_EDE (keyUse encrypting)
      = .ok (keyData, keyLen))
    (hinit : (DES3Context.init P H context encrypting self w mem).result = .ok ()) :
    keyLen = 24 ∧
    ∀ i : Fin 3, InitKeyed P (readBlock mem (keyData + 8 * i.val))
      ((DES3Context.init P H context encrypting self w mem).self.DesInst i) := by
  simp only [DES3Context.init, hkey] at hinit ⊢
  by_cases hl : keyLen = 24
  · refine ⟨hl, fun i => ?_⟩
    generalize ht : [Event.symmetricKeyBits AlgId.CSSM_ALGID_3DES_3KEY_EDE (keyUse encrypting)]
      ++ [Event.lock] = t at hinit ⊢
    by_cases h0 : (DES3Context.initLoop P mem keyData 3 0 self.DesInst w t).irtn = 0
    · have hk := initLoop_keyed P mem keyData 3 0 self.DesInst w t h0 i (Nat.zero_le _)
        (by have := i.isLt; omega)
      cases hs : H.setup DES3_BLOCK_SIZE_BYTES context with
      | error e => simp [hl, DES3_KEY_SIZE_BYTES, h0, hs] at hinit
      | ok u =>
        simp only [hl, DES3_KEY_SIZE_BYTES, ne_eq, not_true_eq_false, if_false, h0, hs]
        exact hk
    · simp [hl, DES3_KEY_SIZE_BYTES, h0] at hinit
  · simp [hl, DES3_KEY_SIZE_BYTES] at hinit

/-- The function `DES3Context::encryptBlock` on a full block with room for the output:
it returns normally, reports length 8, and the output buffer holds the
three-step composition of the input block. -/
theorem DES3Context_encryptBlock_ok (P : DESPrimitive W sz) (self : DES3Context sz)
    (mem : Mem) (plainText cipherText cipherTextLen : Nat) (final : Bool)
    (hcap : 8 ≤ cipherTextLen) :
    (DES3Context.encryptBlock P self mem plainText 8 cipherText cipherTextLen final).result
      = .ok () ∧
    (DES3Context.encryptBlock P self mem plainText 8 cipherText cipherTextLen final).len = 8 ∧
    readBlock
      (DES3Context.encryptBlock P self mem plainText 8 cipherText cipherTextLen final).mem
      cipherText
      = edeEncrypt P (self.DesInst 0) (self.DesInst 1) (self.DesInst 2)
          (readBlock mem plainText) := by
  have hc : ¬ cipherTextLen < 8 := by omega
  simp only [DES3Context.encryptBlock, DES3_BLOCK_SIZE_BYTES, ne_eq, not_true_eq_false,
    if_false, hc, readBlock_writeBlock, edeEncrypt, true_and]
  have := readBlock_staged mem plainText cipherText
  simp only [ne_eq] at this
  rw [this]

/-- The states `DES3Context::encryptBlock` leaves in the three instances. -/
theorem DES3Context_encryptBlock_self (P : DESPrimitive W sz) (self : DES3Context sz)
    (mem : Mem) (plainText cipherText cipherTextLen : Nat) (final : Bool)
    (hcap : 8 ≤ cipherTextLen) :
    (DES3Context.encryptBlock P self mem plainText 8 cipherText cipherTextLen final).self.DesInst
      = ![(P.endes (self.DesInst 0) (readBlock mem plainText)).1,
          (P.dedes (self.DesInst 1) (P.endes (self.DesInst 0) (readBlock mem plainText)).2).1,
          (P.endes (self.DesInst 2)
            (P.dedes (self.DesInst 1)
              (P.endes (self.DesInst 0) (readBlock mem plainText)).2).2).1] := by
  have hc : ¬ cipherTextLen < 8 := by omega
  simp only [DES3Context.encryptBlock, DES3_BLOCK_SIZE_BYTES, ne_eq, not_true_eq_false,
    if_false, hc, readBlock_writeBlock]
  have := readBlock_staged mem plainText cipherText
  simp only [ne_eq] at this
  rw [this]

/-- The function `DES3Context::decryptBlock` with room for the output: it returns
normally, reports length 8, and the output buffer holds the input block
after `dedes` on instance 2, `endes` on instance 1, `dedes` on instance 0. -/
theorem DES3Context_decryptBlock_ok (P : DESPrimitive W sz) (self : DES3Context sz)
    (mem : Mem) (cipherText plainText plainTextLen : Nat) (final : Bool)
    (hcap : 8 ≤ plainTextLen) :
    (DES3Context.decryptBlock P self mem cipherText plainText plainTextLen final).result
      = .ok () ∧
    (DES3Context.decryptBlock P self mem cipherText plainText plainTextLen final).len = 8 ∧
    readBlock
      (DES3Context.decryptBlock P self mem cipherText plainText plainTextLen final).mem
      plainText
      = (P.dedes (self.DesInst 0)
          (P.endes (self.DesInst 1)
            (P.dedes (self.DesInst 2) (readBlock mem cipherText)).2).2).2 := by
  have hc : ¬ plainTextLen < 8 := by omega
  simp only [DES3Context.decryptBlock, DES3_BLOCK_SIZE_BYTES, ne_eq, hc, if_false,
    readBlock_writeBlock, true_and]
  have := readBlock_staged_rev mem cipherText plainText
  simp only [ne_eq] at this
  rw [this]

/-- The function `DESContext::encryptBlock` on a full block with room for the output. -/
theorem DESContext_encryptBlock_ok (P : DESPrimitive W sz) (self : DESContext sz)
    (mem : Mem) (plainText cipherText cipherTextLen : Nat) (final : Bool)
    (hcap : 8 ≤ cipherTextLen) :
    (DESContext.encryptBlock P self mem plainText 8 cipherText cipherTextLen final).result
      = .ok () ∧
    (DESContext.encryptBlock P self mem plainText 8 cipherText cipherTextLen final).len = 8 ∧
    readBlock
      (DESContext.encryptBlock P self mem plainText 8 cipherText cipherTextLen final).mem
      cipherText
      = (P.endes self.DesInst (readBlock mem plainText)).2 := by
  have hc : ¬ cipherTextLen < 8 := by omega
  simp only [DESContext.encryptBlock, DES_BLOCK_SIZE_BYTES, ne_eq, not_true_eq_false,
    if_false, hc, readBlock_writeBlock, true_and]
  have := readBlock_staged mem plainText cipherText
  simp only [ne_eq] at this
  rw [this]

/-- A block has finitely many values, so when `dedes` undoes `endes` on
states keyed alike, `endes` undoes `dedes` on them as well. -/
theorem endes_dedes_of_inverts (P : DESPrimitive W sz) (hinv : DedesInvertsEndes P)
    (k : Block) (s s' : Storage sz) (hs : Keyed P k s) (hs' : Keyed P k s') (y : Block) :
    (P.endes s (P.dedes s' y).2).2 = y := by
  have hinj : Function.Injective (fun b : Block => (P.endes s b).2) := by
    intro a b hab
    have h1 := hinv k s s' hs hs' a
    have h2 := hinv k s s' hs hs' b
    simp only at hab
    rw [hab] at h1
    exact h1.symm.trans h2
  obtain ⟨b, hb⟩ := (Finite.injective_iff_surjective.mp hinj) y
  simp only at hb
  rw [← hb, hinv k s s' hs hs' b]

/-- Under the same assumption `endes` gives the same block on any two
states keyed alike. -/
theorem endes_eq_of_inverts (P : DESPrimitive W sz) (hinv : DedesInvertsEndes P)
    (k : Block) (s s' : Storage sz) (hs : Keyed P k s) (hs' : Keyed P k s') (b : Block) :
    (P.endes s b).2 = (P.endes s' b).2 := by
  have h := endes_dedes_of_inverts P hinv k s s hs hs (P.endes s' b).2
  rw [hinv k s' s hs' hs b] at h
  exact h

/-- On the sample engine a keyed state holds its subkey in bytes 1 to 8. -/
theorem sampleEngine_keyed (k : Block) (s : Storage 9) (h : Keyed sampleEngine k s)
    (j : Fin 8) : s ⟨j.val + 1, by omega⟩ = k j := by
  induction h with
  | init s hi =>
    obtain ⟨w, s0, _, rfl⟩ := hi
    simp [sampleEngine]
  | endes s b _ ih => exact ih
  | dedes s b _ ih => exact ih

/-- The sample engine's `dedes` undoes its `endes`. -/
theorem sampleEngine_inverts : DedesInvertsEndes sampleEngine := by
  intro k s s' hs hs' b
  funext j
  have h1 := sampleEngine_keyed k s hs j
  have h2 := sampleEngine_keyed k s' hs' j
  simp only [sampleEngine]
  rw [h1, h2]
  exact add_sub_cancel_right (b j) (k j)

end Facts

/-! ## C1 -/

section Claims

variable {W Ctx : Type} {sz : Nat}

/-- C1: after `DES3Context::init` has succeeded with the 24-byte key `K`,
the three instances are initialised and keyed with `K[0..8)`, `K[8..16)` and
`K[16..24)` in this order, and `encryptBlock` with `plainTextLen = 8` and an
output capacity of at least 8 returns normally, sets the output length to 8
and leaves in the first 8 output bytes `E_k2(D_k1(E_k0(P)))`, the transforms
being `endes` and `dedes` on these three keyed states. -/
theorem DES3Context_encryptBlock_is_EDE (P : DESPrimitive W sz) (H : Host Ctx)
    (context : Ctx) (encrypting : Bool) (self : DES3Context sz) (w : W) (memK : Mem)
    (keyData : Nat) (K : Fin 24 → Byte)
    (hkey : H.symmetricKeyBits context AlgId.CSSM_ALGID_3DES_3KEY_EDE (keyUse encrypting)
      = .ok (keyData, 24))
    (hK : ∀ j : Fin 24, memK (keyData + j.val) = K j)
    (hinit : (DES3Context.init P H context encrypting self w memK).result = .ok ())
    (mem : Mem) (plainText cipherText cipherTextLen : Nat) (final : Bool)
    (hcap : 8 ≤ cipherTextLen) :
    (∀ i : Fin 3, InitKeyed P (subkey K i)
      ((DES3Context.init P H context encrypting self w memK).self.DesInst i)) ∧
    (DES3Context.encryptBlock P (DES3Context.init P H context encrypting self w memK).self
      mem plainText 8 cipherText cipherTextLen final).result = .ok () ∧
    (DES3Context.encryptBlock P (DES3Context.init P H context encrypting self w memK).self
      mem plainText 8 cipherText cipherTextLen final).len = 8 ∧
    readBlock
      (DES3Context.encryptBlock P (DES3Context.init P H context encrypting self w memK).self
        mem plainText 8 cipherText cipherTextLen final).mem cipherText
      = edeEncrypt P
          ((DES3Context.init P H context encrypting self w memK).self.DesInst 0)
          ((DES3Context.init P H context encrypting self w memK).self.DesInst 1)
          ((DES3Context.init P H context encrypting self w memK).self.DesInst 2)
          (readBlock mem plainText) := by
  refine ⟨fun i => ?_, DES3Context_encryptBlock_ok P _ mem plainText cipherText cipherTextLen
    final hcap⟩
  have hk := (DES3Context_init_ok P H context encrypting self w memK keyData 24 hkey hinit).2 i
  have hs : subkey K i = readBlock memK (keyData + 8 * i.val) := by
    funext j
    simp only [subkey, readBlock]
    rw [← hK]
    simp [Nat.add_assoc]
  rw [hs]
  exact hk

/-- C1 on the sample engine: key bytes at addresses 0 to 23, the plaintext
block at address 100, the output buffer at address 200. -/
theorem DES3Context_encryptBlock_is_EDE_witness :
    sampleHost.symmetricKeyBits (0, 24) AlgId.CSSM_ALGID_3DES_3KEY_EDE (keyUse true)
      = .ok (0, 24) ∧
    (DES3Context.init sampleEngine sampleHost (0, 24) true sampleDES3 (sampleWorld 3)
      sampleMem).result = .ok () ∧
    readBlock
      (DES3Context.encryptBlock sampleEngine
        (DES3Context.init sampleEngine sampleHost (0, 24) true sampleDES3 (sampleWorld 3)
          sampleMem).self sampleMem 100 8 200 8 false).mem 200
      = edeEncrypt sampleEngine
          ((DES3Context.init sampleEngine sampleHost (0, 24) true sampleDES3 (sampleWorld 3)
            sampleMem).self.DesInst 0)
          ((DES3Context.init sampleEngine sampleHost (0, 24) true sampleDES3 (sampleWorld 3)
            sampleMem).self.DesInst 1)
          ((DES3Context.init sampleEngine sampleHost (0, 24) true sampleDES3 (sampleWorld 3)
            sampleMem).self.DesInst 2)
          (readBlock sampleMem 100) :=
  ⟨rfl, rfl,
    (DES3Context_encryptBlock_is_EDE sampleEngine sampleHost (0, 24) true sampleDES3
      (sampleWorld 3) sampleMem 0 (fun j => sampleMem j.val) rfl (fun j => by simp) rfl
      sampleMem 100 200 8 false (Nat.le_refl 8)).2.2.2⟩

/-- The output of that run, byte by byte. -/
theorem DES3Context_encryptBlock_sample_value :
    readBlock
      (DES3Context.encryptBlock sampleEngine
        (DES3Context.init sampleEngine sampleHost (0, 24) true sampleDES3 (sampleWorld 3)
          sampleMem).self sampleMem 100 8 200 8 false).mem 200
      = ![250, 8, 22, 36, 50, 64, 78, 92] := by
  decide

/-! ## C2 -/

/-- C2: round trip for 3DES. On a `DES3Context` initialised with a 24-byte
key, `decryptBlock` applied to the eight bytes that `encryptBlock` produced
from the block `P` returns normally and leaves `P` in its output buffer,
provided the primitive's `dedes` undoes `endes` on states keyed with the
same subkey. -/
theorem DES3Context_round_trip (P : DESPrimitive W sz) (hinv : DedesInvertsEndes P)
    (H : Host Ctx) (context : Ctx) (encrypting : Bool) (self : DES3Context sz) (w : W)
    (memK : Mem) (keyData : Nat)
    (hkey : H.symmetricKeyBits context AlgId.CSSM_ALGID_3DES_3KEY_EDE (keyUse encrypting)
      = .ok (keyData, 24))
    (hinit : (DES3Context.init P H context encrypting self w memK).result = .ok ())
    (mem : Mem) (plainText cipherText cipherTextLen : Nat) (final : Bool)
    (hcap : 8 ≤ cipherTextLen)
    (mem' : Mem) (cipherText' plainText' plainTextLen' : Nat) (final' : Bool)
    (hcap' : 8 ≤ plainTextLen')
    (hC : readBlock mem' cipherText' = readBlock
      (DES3Context.encryptBlock P (DES3Context.init P H context encrypting self w memK).self
        mem plainText 8 cipherText cipherTextLen final).mem cipherText) :
    (DES3Context.decryptBlock P
      (DES3Context.encryptBlock P (DES3Context.init P H context encrypting self w memK).self
        mem plainText 8 cipherText cipherTextLen final).self
      mem' cipherText' plainText' plainTextLen' final').result = .ok () ∧
    readBlock
      (DES3Context.decryptBlock P
        (DES3Context.encryptBlock P (DES3Context.init P H context encrypting self w memK).self
          mem plainText 8 cipherText cipherTextLen final).self
        mem' cipherText' plainText' plainTextLen' final').mem plainText'
      = readBlock mem plainText := by
  have hk := (DES3Context_init_ok P H context encrypting self w memK keyData 24 hkey hinit).2
  generalize (DES3Context.init P H context encrypting self w memK).self = c at hk hC ⊢
  have k0 := Keyed.init _ (hk 0)
  have k1 := Keyed.init _ (hk 1)
  have k2 := Keyed.init _ (hk 2)
  have he := DES3Context_encryptBlock_ok P c mem plainText cipherText cipherTextLen final hcap
  have hs := DES3Context_encryptBlock_self P c mem plainText cipherText cipherTextLen final hcap
  rw [he.2.2] at hC
  generalize DES3Context.encryptBlock P c mem plainText 8 cipherText cipherTextLen final = e
    at hs ⊢
  have hd := DES3Context_decryptBlock_ok P e.self mem' cipherText' plainText' plainTextLen'
    final' hcap'
  refine ⟨hd.1, ?_⟩
  rw [hd.2.2, hC, hs]
  simp only [edeEncrypt, Matrix.cons_val_zero, Matrix.cons_val_one, Matrix.head_cons,
    Matrix.cons_val_two, Matrix.tail_cons]
  rw [hinv _ _ _ k2 (Keyed.endes _ _ k2),
    endes_dedes_of_inverts P hinv _ _ _ (Keyed.dedes _ _ k1) k1,
    hinv _ _ _ k0 (Keyed.endes _ _ k0)]

/-- C2 on the sample engine: the block at address 100 is encrypted to
address 200 and decrypted from there to address 300. -/
theorem DES3Context_round_trip_witness :
    (DES3Context.init sampleEngine sampleHost (0, 24) true sampleDES3 (sampleWorld 3)
      sampleMem).result = .ok () ∧
    readBlock
      (DES3Context.decryptBlock sampleEngine
        (DES3Context.encryptBlock sampleEngine
          (DES3Context.init sampleEngine sampleHost (0, 24) true sampleDES3 (sampleWorld 3)
            sampleMem).self sampleMem 100 8 200 8 false).self
        (DES3Context.encryptBlock sampleEngine
          (DES3Context.init sampleEngine sampleHost (0, 24) true sampleDES3 (sampleWorld 3)
            sampleMem).self sampleMem 100 8 200 8 false).mem
        200 300 8 false).mem 300
      = readBlock sampleMem 100 :=
  ⟨rfl,
    (DES3Context_round_trip sampleEngine sampleEngine_inverts sampleHost (0, 24) true
      sampleDES3 (sampleWorld 3) sampleMem 0 rfl rfl sampleMem 100 200 8 false
      (Nat.le_refl 8) _ 200 300 8 false (Nat.le_refl 8) rfl).2⟩

/-! ## C3 -/

/-- C3: degenerate 3DES. A `DES3Context` initialised with the 24-byte key
`k‖k‖k` and a `DESContext` initialised with the 8-byte key `k` produce the
same eight ciphertext bytes from the same block, provided the primitive's
`dedes` undoes `endes` on states keyed with the same subkey. -/
theorem DES3Context_degenerates_to_DES (P : DESPrimitive W sz) (hinv : DedesInvertsEndes P)
    (H : Host Ctx) (k : Block)
    (context3 : Ctx) (encrypting3 : Bool) (self3 : DES3Context sz) (w3 : W) (memK3 : Mem)
    (keyData3 : Nat)
    (hkey3 : H.symmetricKeyBits context3 AlgId.CSSM_ALGID_3DES_3KEY_EDE (keyUse encrypting3)
      = .ok (keyData3, 24))
    (hK3 : ∀ j : Fin 24, memK3 (keyData3 + j.val) = tripled k j)
    (hinit3 : (DES3Context.init P H context3 encrypting3 self3 w3 memK3).result = .ok ())
    (context1 : Ctx) (encrypting1 : Bool) (self1 : DESContext sz) (w1 : W) (memK1 : Mem)
    (keyData1 : Nat)
    (hkey1 : H.symmetricKeyBits context1 AlgId.CSSM_ALGID_DES (keyUse encrypting1)
      = .ok (keyData1, 8))
    (hK1 : ∀ j : Fin 8, memK1 (keyData1 + j.val) = k j)
    (hinit1 : (DESContext.init P H context1 encrypting1 self1 w1 memK1).result = .ok ())
    (mem3 : Mem) (plainText3 cipherText3 cipherTextLen3 : Nat) (final3 : Bool)
    (hcap3 : 8 ≤ cipherTextLen3)
    (mem1 : Mem) (plainText1 cipherText1 cipherTextLen1 : Nat) (final1 : Bool)
    (hcap1 : 8 ≤ cipherTextLen1)
    (hB : readBlock mem3 plainText3 = readBlock mem1 plainText1) :
    readBlock
      (DES3Context.encryptBlock P
        (DES3Context.init P H context3 encrypting3 self3 w3 memK3).self
        mem3 plainText3 8 cipherText3 cipherTextLen3 final3).mem cipherText3
      = readBlock
        (DESContext.encryptBlock P
          (DESContext.init P H context1 encrypting1 self1 w1 memK1).self
          mem1 plainText1 8 cipherText1 cipherTextLen1 final1).mem cipherText1 := by
  have hk3 := (DES3Context_init_ok P H context3 encrypting3 self3 w3 memK3 keyData3 24
    hkey3 hinit3).2
  have hk1 := (DESContext_init_ok P H context1 encrypting1 self1 w1 memK1 keyData1 8
    hkey1 hinit1).2
  have hsub : ∀ i : Fin 3, readBlock memK3 (keyData3 + 8 * i.val) = k := by
    intro i
    funext j
    have hj := j.isLt
    have hi := i.isLt
    have := hK3 ⟨8 * i.val + j.val, by omega⟩
    simp only [tripled] at this
    simp only [readBlock, Nat.add_assoc]
    rw [this]
    congr 1
    apply Fin.ext
    simp only
    omega
  have hone : readBlock memK1 keyData1 = k := by
    funext j
    exact hK1 j
  simp only [hsub] at hk3
  rw [hone] at hk1
  generalize (DES3Context.init P H context3 encrypting3 self3 w3 memK3).self = c3 at hk3 ⊢
  generalize (DESContext.init P H context1 encrypting1 self1 w1 memK1).self = c1 at hk1 ⊢
  have q0 := Keyed.init _ (hk3 0)
  have q1 := Keyed.init _ (hk3 1)
  have q2 := Keyed.init _ (hk3 2)
  have q := Keyed.init _ hk1
  rw [(DES3Context_encryptBlock_ok P c3 mem3 plainText3 cipherText3 cipherTextLen3 final3
      hcap3).2.2,
    (DESContext_encryptBlock_ok P c1 mem1 plainText1 cipherText1 cipherTextLen1 final1
      hcap1).2.2, hB]
  simp only [edeEncrypt]
  rw [hinv k _ _ q0 q1]
  exact endes_eq_of_inverts P hinv k _ _ q2 q _

/-- C3 on the sample engine: the tripled key at addresses 0 to 23 of one
memory, its first eight bytes as the DES key, the block at address 100. -/
theorem DES3Context_degenerates_to_DES_witness :
    (DES3Context.init sampleEngine sampleHost (0, 24) true sampleDES3 (sampleWorld 3)
      sampleMemTripled).result = .ok () ∧
    (DESContext.init sampleEngine sampleHost (0, 8) true sampleDES (sampleWorld 1)
      sampleMemTripled).result = .ok () ∧
    readBlock
      (DES3Context.encryptBlock sampleEngine
        (DES3Context.init sampleEngine sampleHost (0, 24) true sampleDES3 (sampleWorld 3)
          sampleMemTripled).self sampleMem 100 8 200 8 false).mem 200
      = readBlock
        (DESContext.encryptBlock sampleEngine
          (DESContext.init sampleEngine sampleHost (0, 8) true sampleDES (sampleWorld 1)
            sampleMemTripled).self sampleMem 100 8 100 8 true).mem 100 :=
  ⟨rfl, rfl,
    DES3Context_degenerates_to_DES sampleEngine sampleEngine_inverts sampleHost
      (readBlock sampleMemTripled 0)
      (0, 24) true sampleDES3 (sampleWorld 3) sampleMemTripled 0 rfl
      (fun j => by simp [tripled, readBlock, sampleMemTripled]) rfl
      (0, 8) true sampleDES (sampleWorld 1) sampleMemTripled 0 rfl
      (fun j => by simp [readBlock]) rfl
      sampleMem 100 200 8 false (Nat.le_refl 8)
      sampleMem 100 100 8 true (Nat.le_refl 8) rfl⟩

/-! ## C4 -/

/-- C4: for both adapters, when the extracted key length differs from the
required one (8 for `DESContext`, 24 for `DES3Context`), `init` fails with
`CSSMERR_CSP_INVALID_ATTR_KEY`; the instances and the engine's global state
are unchanged and the only call made is the key extraction: neither
`desinit` nor `dessetkey` nor `setup` is called. -/
theorem init_rejects_wrong_key_length :
    (∀ (P : DESPrimitive W sz) (H : Host Ctx) (context : Ctx) (encrypting : Bool)
      (self : DESContext sz) (w : W) (mem : Mem) (keyData keyLen : Nat),
      H.symmetricKeyBits context AlgId.CSSM_ALGID_DES (keyUse encrypting)
        = .ok (keyData, keyLen) →
      keyLen ≠ 8 →
      (DESContext.init P H context encrypting self w mem).result
        = .error CssmError.CSSMERR_CSP_INVALID_ATTR_KEY ∧
      (DESContext.init P H context encrypting self w mem).self = self ∧
      (DESContext.init P H context encrypting self w mem).world = w ∧
      (DESContext.init P H context encrypting self w mem).trace
        = [Event.symmetricKeyBits AlgId.CSSM_ALGID_DES (keyUse encrypting)] ∧
      ((DESContext.init P H context encrypting self w mem).trace.any
        fun e => e.isDesinit || e.isDessetkey || e.isSetup) = false) ∧
    (∀ (P : DESPrimitive W sz) (H : Host Ctx) (context : Ctx) (encrypting : Bool)
      (self : DES3Context sz) (w : W) (mem : Mem) (keyData keyLen : Nat),
      H.symmetricKeyBits context AlgId.CSSM_ALGID_3DES_3KEY_EDE (keyUse encrypting)
        = .ok (keyData, keyLen) →
      keyLen ≠ 24 →
      (DES3Context.init P H context encrypting self w mem).result
        = .error CssmError.CSSMERR_CSP_INVALID_ATTR_KEY ∧
      (DES3Context.init P H context encrypting self w mem).self = self ∧
      (DES3Context.init P H context encrypting self w mem).world = w ∧
      (DES3Context.init P H context encrypting self w mem).trace
        = [Event.symmetricKeyBits AlgId.CSSM_ALGID_3DES_3KEY_EDE (keyUse encrypting)] ∧
      ((DES3Context.init P H context encrypting self w mem).trace.any
        fun e => e.isDesinit || e.isDessetkey || e.isSetup) = false) := by
  constructor
  · intro P H context encrypting self w mem keyData keyLen hkey hl
    simp [DESContext.init, hkey, hl, DES_KEY_SIZE_BITS_EXTERNAL, Event.isDesinit,
      Event.isDessetkey, Event.isSetup]
  · intro P H context encrypting self w mem keyData keyLen hkey hl
    simp [DES3Context.init, hkey, hl, DES3_KEY_SIZE_BYTES, Event.isDesinit,
      Event.isDessetkey, Event.isSetup]

/-- C4 on the sample engine: a 7-byte DES key is rejected and the allocator
is as it was. -/
theorem init_rejects_wrong_key_length_witness :
    sampleHost.symmetricKeyBits (0, 7) AlgId.CSSM_ALGID_DES (keyUse true) = .ok (0, 7) ∧
    7 ≠ 8 ∧
    (DESContext.init sampleEngine sampleHost (0, 7) true sampleDES (sampleWorld 1)
      sampleMem).result = .error CssmError.CSSMERR_CSP_INVALID_ATTR_KEY ∧
    (DESContext.init sampleEngine sampleHost (0, 7) true sampleDES (sampleWorld 1)
      sampleMem).world = sampleWorld 1 :=
  ⟨rfl, by decide,
    (init_rejects_wrong_key_length.1 sampleEngine sampleHost (0, 7) true sampleDES
      (sampleWorld 1) sampleMem 0 7 rfl (by decide)).1,
    (init_rejects_wrong_key_length.1 sampleEngine sampleHost (0, 7) true sampleDES
      (sampleWorld 1) sampleMem 0 7 rfl (by decide)).2.2.1⟩

/-! ## C5 -/

/-- C5: for both adapters and every input, `encryptBlock` with
`plainTextLen ≠ 8` fails with `CSSMERR_CSP_INPUT_LENGTH_ERROR`; memory, and
with it the output buffer, is unchanged, the in/out output length is left as
it was, and so are the instances. -/
theorem encryptBlock_rejects_input_length :
    (∀ (P : DESPrimitive W sz) (self : DESContext sz) (mem : Mem)
      (plainText plainTextLen cipherText cipherTextLen : Nat) (final : Bool),
      plainTextLen ≠ 8 →
      (DESContext.encryptBlock P self mem plainText plainTextLen cipherText cipherTextLen
        final).result = .error CssmError.CSSMERR_CSP_INPUT_LENGTH_ERROR ∧
      (DESContext.encryptBlock P self mem plainText plainTextLen cipherText cipherTextLen
        final).mem = mem ∧
      (DESContext.encryptBlock P self mem plainText plainTextLen cipherText cipherTextLen
        final).len = cipherTextLen ∧
      (DESContext.encryptBlock P self mem plainText plainTextLen cipherText cipherTextLen
        final).self = self) ∧
    (∀ (P : DESPrimitive W sz) (self : DES3Context sz) (mem : Mem)
      (plainText plainTextLen cipherText cipherTextLen : Nat) (final : Bool),
      plainTextLen ≠ 8 →
      (DES3Context.encryptBlock P self mem plainText plainTextLen cipherText cipherTextLen
        final).result = .error CssmError.CSSMERR_CSP_INPUT_LENGTH_ERROR ∧
      (DES3Context.encryptBlock P self mem plainText plainTextLen cipherText cipherTextLen
        final).mem = mem ∧
      (DES3Context.encryptBlock P self mem plainText plainTextLen cipherText cipherTextLen
        final).len = cipherTextLen ∧
      (DES3Context.encryptBlock P self mem plainText plainTextLen cipherText cipherTextLen
        final).self = self) := by
  constructor
  · intro P self mem plainText plainTextLen cipherText cipherTextLen final hl
    simp [DESContext.encryptBlock, DES_BLOCK_SIZE_BYTES, hl]
  · intro P self mem plainText plainTextLen cipherText cipherTextLen final hl
    simp [DES3Context.encryptBlock, DES3_BLOCK_SIZE_BYTES, hl]

/-- C5 on the sample engine: a 16-byte input to the 3DES adapter. -/
theorem encryptBlock_rejects_input_length_witness :
    16 ≠ 8 ∧
    (DES3Context.encryptBlock sampleEngine sampleDES3 sampleMem 100 16 200 64 true).result
      = .error CssmError.CSSMERR_CSP_INPUT_LENGTH_ERROR ∧
    (DES3Context.encryptBlock sampleEngine sampleDES3 sampleMem 100 16 200 64 true).mem
      = sampleMem ∧
    (DES3Context.encryptBlock sampleEngine sampleDES3 sampleMem 100 16 200 64 true).len
      = 64 :=
  ⟨by decide,
    (encryptBlock_rejects_input_length.2 sampleEngine sampleDES3 sampleMem 100 16 200 64 true
      (by decide)).1,
    (encryptBlock_rejects_input_length.2 sampleEngine sampleDES3 sampleMem 100 16 200 64 true
      (by decide)).2.1,
    (encryptBlock_rejects_input_length.2 sampleEngine sampleDES3 sampleMem 100 16 200 64 true
      (by decide)).2.2.1⟩

/-! ## C8 -/

/-- C8: zeroization. After `~DESContext` every byte of the instance's storage
is zero, and after `~DES3Context` every byte of each of the three storages is
zero, whatever the storage held and whatever `desdone` made of it. -/
theorem destructors_zeroize :
    (∀ (P : DESPrimitive W sz) (self : DESContext sz) (w : W) (i : Fin sz),
      (DESContext.destroy P self w).self.DesInst i = 0) ∧
    (∀ (P : DESPrimitive W sz) (self : DES3Context sz) (w : W) (j : Fin 3) (i : Fin sz),
      (DES3Context.destroy P self w).self.DesInst j i = 0) := by
  constructor
  · intro P self w i
    simp [DESContext.destroy, memset]
  · intro P self w j i
    fin_cases j <;>
      simp [DES3Context.destroy, DES3Context.destroyLoop, memset, Function.update]

/-! ## C6 -/

/-- C6 as stated fails: with an output capacity of 0 and `plainTextLen = 7`
the input-length test comes first, and `DESContext::encryptBlock` fails with
`CSSMERR_CSP_INPUT_LENGTH_ERROR`, not with `CSSMERR_CSP_OUTPUT_LENGTH_ERROR`. -/
theorem encryptBlock_short_output_not_always_output_error :
    0 < 8 ∧
    (DESContext.encryptBlock sampleEngine sampleDES sampleMem 100 7 200 0 false).result
      = .error CssmError.CSSMERR_CSP_INPUT_LENGTH_ERROR ∧
    (DESContext.encryptBlock sampleEngine sampleDES sampleMem 100 7 200 0 false).result
      ≠ .error CssmError.CSSMERR_CSP_OUTPUT_LENGTH_ERROR := by
  refine ⟨by decide, rfl, ?_⟩
  intro h
  have h' : (Except.error CssmError.CSSMERR_CSP_INPUT_LENGTH_ERROR : Except CssmError Unit)
      = .error CssmError.CSSMERR_CSP_OUTPUT_LENGTH_ERROR := h
  cases h'

/-- C6, amended: with an output capacity below 8, `decryptBlock` of either
adapter fails with `CSSMERR_CSP_OUTPUT_LENGTH_ERROR` whatever the other
arguments, and `encryptBlock` of either adapter does so when
`plainTextLen = 8`; in each of these calls memory, and with it the output
buffer, is unchanged. -/
theorem transforms_reject_short_output :
    (∀ (P : DESPrimitive W sz) (self : DESContext sz) (mem : Mem)
      (plainText cipherText cipherTextLen : Nat) (final : Bool),
      cipherTextLen < 8 →
      (DESContext.encryptBlock P self mem plainText 8 cipherText cipherTextLen final).result
        = .error CssmError.CSSMERR_CSP_OUTPUT_LENGTH_ERROR ∧
      (DESContext.encryptBlock P self mem plainText 8 cipherText cipherTextLen final).mem
        = mem) ∧
    (∀ (P : DESPrimitive W sz) (self : DESContext sz) (mem : Mem)
      (cipherText plainText plainTextLen : Nat) (final : Bool),
      plainTextLen < 8 →
      (DESContext.decryptBlock P self mem cipherText plainText plainTextLen final).result
        = .error CssmError.CSSMERR_CSP_OUTPUT_LENGTH_ERROR ∧
      (DESContext.decryptBlock P self mem cipherText plainText plainTextLen final).mem
        = mem) ∧
    (∀ (P : DESPrimitive W sz) (self : DES3Context sz) (mem : Mem)
      (plainText cipherText cipherTextLen : Nat) (final : Bool),
      cipherTextLen < 8 →
      (DES3Context.encryptBlock P self mem plainText 8 cipherText cipherTextLen final).result
        = .error CssmError.CSSMERR_CSP_OUTPUT_LENGTH_ERROR ∧
      (DES3Context.encryptBlock P self mem plainText 8 cipherText cipherTextLen final).mem
        = mem) ∧
    (∀ (P : DESPrimitive W sz) (self : DES3Context sz) (mem : Mem)
      (cipherText plainText plainTextLen : Nat) (final : Bool),
      plainTextLen < 8 →
      (DES3Context.decryptBlock P self mem cipherText plainText plainTextLen final).result
        = .error CssmError.CSSMERR_CSP_OUTPUT_LENGTH_ERROR ∧
      (DES3Context.decryptBlock P self mem cipherText plainText plainTextLen final).mem
        = mem) := by
  refine ⟨?_, ?_, ?_, ?_⟩
  · intro P self mem plainText cipherText cipherTextLen final hl
    simp [DESContext.encryptBlock, DES_BLOCK_SIZE_BYTES, hl]
  · intro P self mem cipherText plainText plainTextLen final hl
    simp [DESContext.decryptBlock, DES_BLOCK_SIZE_BYTES, hl]
  · intro P self mem plainText cipherText cipherTextLen final hl
    simp [DES3Context.encryptBlock, DES3_BLOCK_SIZE_BYTES, hl]
  · intro P self mem cipherText plainText plainTextLen final hl
    simp [DES3Context.decryptBlock, DES3_BLOCK_SIZE_BYTES, hl]

/-- C6, amended, on the sample engine: a 7-byte output buffer for
`DESContext::decryptBlock`, and for `DES3Context::encryptBlock` of a full
block. -/
theorem transforms_reject_short_output_witness :
    7 < 8 ∧
    (DESContext.decryptBlock sampleEngine sampleDES sampleMem 100 200 7 false).result
      = .error CssmError.CSSMERR_CSP_OUTPUT_LENGTH_ERROR ∧
    (DES3Context.encryptBlock sampleEngine sampleDES3 sampleMem 100 8 200 7 false).result
      = .error CssmError.CSSMERR_CSP_OUTPUT_LENGTH_ERROR ∧
    (DES3Context.encryptBlock sampleEngine sampleDES3 sampleMem 100 8 200 7 false).mem
      = sampleMem :=
  ⟨by decide,
    (transforms_reject_short_output.2.1 sampleEngine sampleDES sampleMem 100 200 7 false
      (by decide)).1,
    (transforms_reject_short_output.2.2.1 sampleEngine sampleDES3 sampleMem 100 200 7 false
      (by decide)).1,
    (transforms_reject_short_output.2.2.1 sampleEngine sampleDES3 sampleMem 100 200 7 false
      (by decide)).2⟩

/-! ## C7 -/

/-- C7 as stated fails. On the sample engine with room for one instance,
`desinit` succeeds for index 0 and returns -1 for index 1.
`DES3Context::init` fails with `CSSMERR_CSP_MEMORY_ERROR`, but `desdone` is
not called on instance 0: the instance stays allocated and keyed with the
first subkey, while instance 2 still holds what it held before. -/
theorem DES3Context_init_failure_keeps_earlier_states :
    (DES3Context.init sampleEngine sampleHost (0, 24) true sampleDES3 (sampleWorld 1)
      sampleMem).result = .error CssmError.CSSMERR_CSP_MEMORY_ERROR ∧
    (DES3Context.init sampleEngine sampleHost (0, 24) true sampleDES3 (sampleWorld 1)
      sampleMem).trace
      = [Event.symmetricKeyBits AlgId.CSSM_ALGID_3DES_3KEY_EDE KeyUse.CSSM_KEYUSE_ENCRYPT,
          Event.lock, Event.desinit 0 0, Event.dessetkey 0 (readBlock sampleMem 0),
          Event.desinit 1 (-1), Event.unlock] ∧
    Event.desdone 0 ∉ (DES3Context.init sampleEngine sampleHost (0, 24) true sampleDES3
      (sampleWorld 1) sampleMem).trace ∧
    (DES3Context.init sampleEngine sampleHost (0, 24) true sampleDES3 (sampleWorld 1)
      sampleMem).world.live = 1 ∧
    (DES3Context.init sampleEngine sampleHost (0, 24) true sampleDES3 (sampleWorld 1)
      sampleMem).self.DesInst 0 = ![1, 3, 10, 17, 24, 31, 38, 45, 52] ∧
    (DES3Context.init sampleEngine sampleHost (0, 24) true sampleDES3 (sampleWorld 1)
      sampleMem).self.DesInst 2 = sampleDES3.DesInst 2 := by
  refine ⟨rfl, by decide, by decide, rfl, by decide, by decide⟩

/-- C7, amended: in `DES3Context::init`, if `desinit` returns a non-zero `x`
for subkey index `i`, then `CSSMERR_CSP_MEMORY_ERROR` is raised, the guard
has been released (the trace ends with the unlock), `setup` is not invoked
and no instance is released in this call: `desdone` is not called, every
instance with index below `i` is left initialised and keyed with its new
subkey, and every instance with index above `i` is as it was. -/
theorem DES3Context_init_desinit_failure (P : DESPrimitive W sz) (H : Host Ctx)
    (context : Ctx) (encrypting : Bool) (self : DES3Context sz) (w : W) (mem : Mem)
    (keyData keyLen : Nat)
    (hkey : H.symmetricKeyBits context AlgId.CSSM_ALGID_3DES_3KEY_EDE (keyUse encrypting)
      = .ok (keyData, keyLen))
    (i : Nat) (x : Int)
    (hm : Event.desinit i x ∈ (DES3Context.init P H context encrypting self w mem).trace)
    (hx : x ≠ 0) :
    (DES3Context.init P H context encrypting self w mem).result
      = .error CssmError.CSSMERR_CSP_MEMORY_ERROR ∧
    i < 3 ∧
    (∃ pre : List Event,
      (DES3Context.init P H context encrypting self w mem).trace = pre ++ [Event.unlock]) ∧
    (∀ e ∈ (DES3Context.init P H context encrypting self w mem).trace,
      e.isDesdone = false ∧ e.isSetup = false) ∧
    (∀ j : Fin 3, j.val < i →
      InitKeyed P (readBlock mem (keyData + 8 * j.val))
        ((DES3Context.init P H context encrypting self w mem).self.DesInst j)) ∧
    (∀ j : Fin 3, i < j.val →
      (DES3Context.init P H context encrypting self w mem).self.DesInst j
        = self.DesInst j) := by
  obtain ⟨t, ht, hall, hfail⟩ := initLoop_trace P mem keyData 3 0 self.DesInst w
    ([Event.symmetricKeyBits AlgId.CSSM_ALGID_3DES_3KEY_EDE (keyUse encrypting)]
      ++ [Event.lock])
  simp only [DES3Context.init, hkey] at hm ⊢
  generalize DES3Context.initLoop P mem keyData 3 0 self.DesInst w
    ([Event.symmetricKeyBits AlgId.CSSM_ALGID_3DES_3KEY_EDE (keyUse encrypting)]
      ++ [Event.lock]) = l at ht hfail hm ⊢
  by_cases hl : keyLen = 24
  · have hmt : Event.desinit i x ∈ t := by
      by_cases h0 : l.irtn = 0
      · cases hs : H.setup DES3_BLOCK_SIZE_BYTES context <;>
          simpa [hl, DES3_KEY_SIZE_BYTES, h0, hs, ht] using hm
      · simpa [hl, DES3_KEY_SIZE_BYTES, h0, ht] using hm
    obtain ⟨h1, _, h3, h4, h5⟩ := hfail i x hmt hx
    have h0 : l.irtn ≠ 0 := by rw [h1]; exact hx
    simp only [hl, DES3_KEY_SIZE_BYTES, ne_eq, not_true_eq_false, if_false, h0,
      not_false_eq_true, if_true, ht]
    refine ⟨trivial, h3, ⟨_, rfl⟩, ?_, fun j hj => h4 j (Nat.zero_le _) hj, h5⟩
    intro e he
    simp only [List.mem_append, List.mem_singleton, List.mem_cons, List.not_mem_nil,
      or_false] at he
    rcases he with ((rfl | rfl) | he) | rfl
    · simp [Event.isDesdone, Event.isSetup]
    · simp [Event.isDesdone, Event.isSetup]
    · have := hall e he
      cases e <;> simp_all [Event.isDesdone, Event.isSetup, Event.isDesinit,
        Event.isDessetkey]
    · simp [Event.isDesdone, Event.isSetup]
  · simp [hl, DES3_KEY_SIZE_BYTES] at hm

/-- C7, amended, on the sample engine with room for one instance: `desinit`
returns -1 for index 1. -/
theorem DES3Context_init_desinit_failure_witness :
    Event.desinit 1 (-1) ∈ (DES3Context.init sampleEngine sampleHost (0, 24) true
      sampleDES3 (sampleWorld 1) sampleMem).trace ∧
    (-1 : Int) ≠ 0 ∧
    (DES3Context.init sampleEngine sampleHost (0, 24) true sampleDES3 (sampleWorld 1)
      sampleMem).result = .error CssmError.CSSMERR_CSP_MEMORY_ERROR ∧
    (∀ j : Fin 3, j.val < 1 →
      InitKeyed sampleEngine (readBlock sampleMem (0 + 8 * j.val))
        ((DES3Context.init sampleEngine sampleHost (0, 24) true sampleDES3 (sampleWorld 1)
          sampleMem).self.DesInst j)) :=
  ⟨by decide, by decide,
    (DES3Context_init_desinit_failure sampleEngine sampleHost (0, 24) true sampleDES3
      (sampleWorld 1) sampleMem 0 24 rfl 1 (-1) (by decide) (by decide)).1,
    (DES3Context_init_desinit_failure sampleEngine sampleHost (0, 24) true sampleDES3
      (sampleWorld 1) sampleMem 0 24 rfl 1 (-1) (by decide) (by decide)).2.2.2.2.1⟩

/-! ## C9 -/

/-- With the guard held, a run of `desinit` and `dessetkey` calls passes the
exact scan for `DES3Context::init`. -/
theorem guardExact_append_held (t rest : List Event)
    (hall : ∀ e ∈ t, (e.isDesinit || e.isDessetkey) = true) :
    guardExact Event.isKeying true (t ++ rest) = guardExact Event.isKeying true rest := by
  induction t with
  | nil => rfl
  | cons e t ih =>
    have he := hall e (List.mem_cons_self e t)
    have ih' := ih (fun e' h' => hall e' (List.mem_cons_of_mem e h'))
    cases e <;>
      simp_all [guardExact, Event.isKeying, Event.isDesinit, Event.isDessetkey]

/-- C9 as stated fails for `DES3Context::init`: the `StLock` spans the whole
loop, so each `dessetkey` is called while the guard is held. On the sample
engine the trace shows the three keyings between `lock` and `unlock`. -/
theorem DES3Context_init_keys_under_guard :
    (DES3Context.init sampleEngine sampleHost (0, 24) true sampleDES3 (sampleWorld 3)
      sampleMem).trace
      = [Event.symmetricKeyBits AlgId.CSSM_ALGID_3DES_3KEY_EDE KeyUse.CSSM_KEYUSE_ENCRYPT,
          Event.lock,
          Event.desinit 0 0, Event.dessetkey 0 (readBlock sampleMem 0),
          Event.desinit 1 0, Event.dessetkey 1 (readBlock sampleMem 8),
          Event.desinit 2 0, Event.dessetkey 2 (readBlock sampleMem 16),
          Event.unlock, Event.setup 8] ∧
    guardHeldOnly Event.isDesinit false
      (DES3Context.init sampleEngine sampleHost (0, 24) true sampleDES3 (sampleWorld 3)
        sampleMem).trace = false := by
  refine ⟨by decide, by decide⟩

/-- C9, amended: in every execution of `init` of either adapter the guard is
released on every way out, failure included, and neither `desdone` nor
`setup` nor the key extraction is called while it is held. In
`DESContext::init` the call of `desinit` is made with the guard held and every
other call with the guard free: `dessetkey` comes after the unlock. In
`DES3Context::init` every call of `desinit` and every call of `dessetkey` is
made with the guard held and every other call with the guard free. The last
two parts give the trace of an `init` that returns normally: for `DESContext`
lock, `desinit`, unlock, `dessetkey`, `setup`; for `DES3Context` lock, then
`desinit` and `dessetkey` for the instances 0, 1 and 2, unlock, `setup`. -/
theorem init_guard_discipline :
    (∀ (P : DESPrimitive W sz) (H : Host Ctx) (context : Ctx) (encrypting : Bool)
      (self : DESContext sz) (w : W) (mem : Mem),
      guardExact Event.isDesinit false
        (DESContext.init P H context encrypting self w mem).trace = true) ∧
    (∀ (P : DESPrimitive W sz) (H : Host Ctx) (context : Ctx) (encrypting : Bool)
      (self : DES3Context sz) (w : W) (mem : Mem),
      guardExact Event.isKeying false
        (DES3Context.init P H context encrypting self w mem).trace = true) ∧
    (∀ (P : DESPrimitive W sz) (H : Host Ctx) (context : Ctx) (encrypting : Bool)
      (self : DESContext sz) (w : W) (mem : Mem) (keyData keyLen : Nat),
      H.symmetricKeyBits context AlgId.CSSM_ALGID_DES (keyUse encrypting)
        = .ok (keyData, keyLen) →
      (DESContext.init P H context encrypting self w mem).result = .ok () →
      (DESContext.init P H context encrypting self w mem).trace
        = [Event.symmetricKeyBits AlgId.CSSM_ALGID_DES (keyUse encrypting),
            Event.lock, Event.desinit 0 0, Event.unlock,
            Event.dessetkey 0 (readBlock mem keyData), Event.setup 8]) ∧
    (∀ (P : DESPrimitive W sz) (H : Host Ctx) (context : Ctx) (encrypting : Bool)
      (self : DES3Context sz) (w : W) (mem : Mem) (keyData keyLen : Nat),
      H.symmetricKeyBits context AlgId.CSSM_ALGID_3DES_3KEY_EDE (keyUse encrypting)
        = .ok (keyData, keyLen) →
      (DES3Context.init P H context encrypting self w mem).result = .ok () →
      (DES3Context.init P H context encrypting self w mem).trace
        = [Event.symmetricKeyBits AlgId.CSSM_ALGID_3DES_3KEY_EDE (keyUse encrypting),
            Event.lock,
            Event.desinit 0 0, Event.dessetkey 0 (readBlock mem (keyData + 8 * 0)),
            Event.desinit 1 0, Event.dessetkey 1 (readBlock mem (keyData + 8 * 1)),
            Event.desinit 2 0, Event.dessetkey 2 (readBlock mem (keyData + 8 * 2)),
            Event.unlock, Event.setup 8]) := by
  refine ⟨?_, ?_, ?_, ?_⟩
  · intro P H context encrypting self w mem
    cases hk : H.symmetricKeyBits context AlgId.CSSM_ALGID_DES (keyUse encrypting) with
    | error e => simp [DESContext.init, hk, guardExact, Event.isDesinit]
    | ok kd =>
      obtain ⟨keyData, keyLen⟩ := kd
      simp only [DESContext.init, hk]
      by_cases hl : keyLen = DES_KEY_SIZE_BITS_EXTERNAL / 8
      · by_cases hr : (P.desinit w self.DesInst DesMode.DES_MODE_STD).1 = 0
        · cases hs : H.setup DES_BLOCK_SIZE_BYTES context <;>
            simp [hl, hr, guardExact, Event.isDesinit]
        · simp [hl, hr, guardExact, Event.isDesinit]
      · simp [hl, guardExact, Event.isDesinit]
  · intro P H context encrypting self w mem
    cases hk : H.symmetricKeyBits context AlgId.CSSM_ALGID_3DES_3KEY_EDE
        (keyUse encrypting) with
    | error e => simp [DES3Context.init, hk, guardExact, Event.isKeying, Event.isDesinit, Event.isDessetkey]
    | ok kd =>
      obtain ⟨keyData, keyLen⟩ := kd
      obtain ⟨t, ht, hall, _⟩ := initLoop_trace P mem keyData 3 0 self.DesInst w
        ([Event.symmetricKeyBits AlgId.CSSM_ALGID_3DES_3KEY_EDE (keyUse encrypting)]
          ++ [Event.lock])
      simp only [DES3Context.init, hk]
      generalize DES3Context.initLoop P mem keyData 3 0 self.DesInst w
        ([Event.symmetricKeyBits AlgId.CSSM_ALGID_3DES_3KEY_EDE (keyUse encrypting)]
          ++ [Event.lock]) = l at ht ⊢
      have hg := guardExact_append_held t
      by_cases hl : keyLen = DES3_KEY_SIZE_BYTES
      · by_cases h0 : l.irtn = 0
        · cases hs : H.setup DES3_BLOCK_SIZE_BYTES context <;>
            simp [hl, h0, ht, guardExact, hg _ hall, Event.isKeying, Event.isDesinit,
              Event.isDessetkey]
        · simp [hl, h0, ht, guardExact, hg _ hall, Event.isKeying, Event.isDesinit,
            Event.isDessetkey]
      · simp [hl, guardExact, Event.isKeying, Event.isDesinit, Event.isDessetkey]
  · intro P H context encrypting self w mem keyData keyLen hkey hinit
    simp only [DESContext.init, hkey] at hinit ⊢
    by_cases hl : keyLen = 8
    · by_cases hr : (P.desinit w self.DesInst DesMode.DES_MODE_STD).1 = 0
      · cases hs : H.setup DES_BLOCK_SIZE_BYTES context with
        | error e => simp [hl, DES_KEY_SIZE_BITS_EXTERNAL, hr, hs] at hinit
        | ok u => simp [hl, DES_KEY_SIZE_BITS_EXTERNAL, hr, DES_BLOCK_SIZE_BYTES]
      · simp [hl, DES_KEY_SIZE_BITS_EXTERNAL, hr] at hinit
    · simp [hl, DES_KEY_SIZE_BITS_EXTERNAL] at hinit
  · intro P H context encrypting self w mem keyData keyLen hkey hinit
    have key := initLoop_trace_ok P mem keyData 3 0 self.DesInst w
      ([Event.symmetricKeyBits AlgId.CSSM_ALGID_3DES_3KEY_EDE (keyUse encrypting)]
        ++ [Event.lock])
    simp only [DES3Context.init, hkey] at hinit ⊢
    generalize DES3Context.initLoop P mem keyData 3 0 self.DesInst w
      ([Event.symmetricKeyBits AlgId.CSSM_ALGID_3DES_3KEY_EDE (keyUse encrypting)]
        ++ [Event.lock]) = l at key hinit ⊢
    by_cases hl : keyLen = 24
    · by_cases h0 : l.irtn = 0
      · have ht := key h0
        cases hs : H.setup DES3_BLOCK_SIZE_BYTES context with
        | error e => simp [hl, DES3_KEY_SIZE_BYTES, h0, hs] at hinit
        | ok u => simp [hl, DES3_KEY_SIZE_BYTES, h0, ht, keyingEvents, DES3_BLOCK_SIZE_BYTES]
      · simp [hl, DES3_KEY_SIZE_BYTES, h0] at hinit
    · simp [hl, DES3_KEY_SIZE_BYTES] at hinit

/-- C9, amended, on the sample engine: an `init` of each adapter that returns
normally, with its trace. -/
theorem init_guard_discipline_witness :
    (DESContext.init sampleEngine sampleHost (0, 8) true sampleDES (sampleWorld 1)
      sampleMem).result = .ok () ∧
    (DESContext.init sampleEngine sampleHost (0, 8) true sampleDES (sampleWorld 1)
      sampleMem).trace
      = [Event.symmetricKeyBits AlgId.CSSM_ALGID_DES (keyUse true),
          Event.lock, Event.desinit 0 0, Event.unlock,
          Event.dessetkey 0 (readBlock sampleMem 0), Event.setup 8] ∧
    (DES3Context.init sampleEngine sampleHost (0, 24) true sampleDES3 (sampleWorld 3)
      sampleMem).result = .ok () ∧
    (DES3Context.init sampleEngine sampleHost (0, 24) true sampleDES3 (sampleWorld 3)
      sampleMem).trace
      = [Event.symmetricKeyBits AlgId.CSSM_ALGID_3DES_3KEY_EDE (keyUse true),
          Event.lock,
          Event.desinit 0 0, Event.dessetkey 0 (readBlock sampleMem (0 + 8 * 0)),
          Event.desinit 1 0, Event.dessetkey 1 (readBlock sampleMem (0 + 8 * 1)),
          Event.desinit 2 0, Event.dessetkey 2 (readBlock sampleMem (0 + 8 * 2)),
          Event.unlock, Event.setup 8] :=
  ⟨rfl,
    init_guard_discipline.2.2.1 sampleEngine sampleHost (0, 8) true sampleDES
      (sampleWorld 1) sampleMem 0 8 rfl rfl,
    rfl,
    init_guard_discipline.2.2.2 sampleEngine sampleHost (0, 24) true sampleDES3
      (sampleWorld 3) sampleMem 0 24 rfl rfl⟩

/-- The two scans tell the adapters apart: the trace of a `DES3Context::init`
that returns normally fails the exact scan of `DESContext::init`, and the
trace of a `DESContext::init` that returns normally fails the exact scan of
`DES3Context::init`. -/
theorem guardExact_separates :
    guardExact Event.isDesinit false
      (DES3Context.init sampleEngine sampleHost (0, 24) true sampleDES3 (sampleWorld 3)
        sampleMem).trace = false ∧
    guardExact Event.isKeying false
      (DESContext.init sampleEngine sampleHost (0, 8) true sampleDES (sampleWorld 1)
        sampleMem).trace = false ∧
    guardExact Event.isKeying false
      [Event.desinit 0 0, Event.dessetkey 0 (readBlock sampleMem 0), Event.lock,
        Event.unlock] = false := by
  refine ⟨by decide, by decide, by decide⟩

/-! ## C10 -/

end Claims

end DesContext
